import Mathlib

/-
Verification development for the image-wrapping editor.

Embedding conventions:
* JavaScript numbers are modelled as exact rationals (ℚ); the two places the
  source calls transcendental functions (Math.sin in the seeded shuffle,
  Math.cos / Math.sin in the shadow geometry) are modelled, respectively, by
  an explicit function parameter and by the real functions Real.cos / Real.sin.
* Math.floor on a rational is Int.floor; Math.round x is ⌊x + 1/2⌋ (JavaScript
  rounds halves toward +∞, also for negative arguments).
* The flat RGBA byte stream read back from the 50×50 sampling canvas is
  modelled as a list of 4-byte pixels.
* The JavaScript plain-object map used for color bins is modelled as an
  insertion-ordered association list keyed by the quantized (r,g,b) triple
  (the source keys the object by the string "r,g,b", which is in bijection
  with the triple).
* Array.prototype.sort is stable (ECMAScript 2019), so its denotation with
  the comparator (a, b) => b.count - a.count is the stable descending
  merge sort by count.
-/

namespace Snap

/-- Math.round for rationals: JavaScript rounds half toward positive infinity. -/
def jsRound (x : ℚ) : ℤ := ⌊x + 1/2⌋

/-- Fractional part as computed by the source expression x - Math.floor(x). -/
def jsFract (x : ℚ) : ℚ := x - ⌊x⌋

/-- rgbToHsl from App.tsx: raw 0–255 channels to (h, s, l). -/
def rgbToHsl (r g b : ℚ) : ℚ × ℚ × ℚ :=
  let r := r / 255
  let g := g / 255
  let b := b / 255
  let mx := max r (max g b)
  let mn := min r (min g b)
  let l := (mx + mn) / 2
  if mx = mn then
    (0, 0, l)
  else
    let d := mx - mn
    let s := if l > 1/2 then d / (2 - mx - mn) else d / (mx + mn)
    let h :=
      if mx = r then (g - b) / d + (if g < b then 6 else 0)
      else if mx = g then (b - r) / d + 2
      else (r - g) / d + 4
    (h / 6, s, l)

/-- hue2rgb helper from hslToHex in App.tsx. -/
def hue2rgb (p q t : ℚ) : ℚ :=
  let t := if t < 0 then t + 1 else t
  let t := if t > 1 then t - 1 else t
  if t < 1/6 then p + (q - p) * 6 * t
  else if t < 1/2 then q
  else if t < 2/3 then p + (q - p) * (2/3 - t) * 6
  else p

/-- Digits of x.toString(16) for a natural number (lowercase hex). -/
def natToHexStr (n : ℕ) : String := String.mk (Nat.toDigits 16 n)

/-- toHex helper from hslToHex in App.tsx: hex string, left-padded to 2 digits. -/
def toHex (x : ℤ) : String :=
  let hex := natToHexStr x.toNat
  if hex.length = 1 then "0" ++ hex else hex

/-- The three rounded RGB channels computed inside hslToHex. -/
def hslToHexChannels (h s l : ℚ) : ℤ × ℤ × ℤ :=
  let q := if l < 1/2 then l * (1 + s) else l + s - l * s
  let p := 2 * l - q
  (jsRound (hue2rgb p q (h + 1/3) * 255),
   jsRound (hue2rgb p q h * 255),
   jsRound (hue2rgb p q (h - 1/3) * 255))

/-- hslToHex from App.tsx. -/
def hslToHex (h s l : ℚ) : String :=
  let c := hslToHexChannels h s l
  "#" ++ toHex c.1 ++ toHex c.2.1 ++ toHex c.2.2

/-- The (h, newS, newL) triple computed inside toMorandi before hex encoding. -/
def toMorandiHsl (r g b : ℚ) : ℚ × ℚ × ℚ :=
  let hsl := rgbToHsl r g b
  (hsl.1, 0.05 + min hsl.2.1 0.5 * 0.20, 0.75 + min hsl.2.2 1 * 0.10)

/-- toMorandi from App.tsx. -/
def toMorandi (r g b : ℚ) : String :=
  let m := toMorandiHsl r g b
  hslToHex m.1 m.2.1 m.2.2

/-- The rounded RGB channels of the Morandi transform output. -/
def morandiChannels (r g b : ℚ) : ℤ × ℤ × ℤ :=
  let m := toMorandiHsl r g b
  hslToHexChannels m.1 m.2.1 m.2.2

/-- One RGBA sample read back from the 50×50 canvas. -/
structure Pixel where
  r : ℕ
  g : ℕ
  b : ℕ
  a : ℕ
deriving DecidableEq

/-- Mean brightness (r+g+b)/3 from the quantizing loop in getImageColors. -/
def brightness (px : Pixel) : ℚ := ((px.r : ℚ) + px.g + px.b) / 3

/-- Whether the quantizing loop in getImageColors keeps a sampled pixel
(the loop continues past pixels with low alpha, near-black or near-white). -/
def survives (px : Pixel) : Bool :=
  if px.a < 128 then false
  else if brightness px < 60 then false
  else if brightness px > 230 then false
  else true

/-- Quantized bin key: each channel floored to a multiple of 32. -/
def binKey (px : Pixel) : ℕ × ℕ × ℕ :=
  (px.r / 32 * 32, px.g / 32 * 32, px.b / 32 * 32)

/-- colorCounts[key] = (colorCounts[key] || 0) + 1 on the ordered map. -/
def bump : List ((ℕ × ℕ × ℕ) × ℕ) → (ℕ × ℕ × ℕ) → List ((ℕ × ℕ × ℕ) × ℕ)
  | [], k => [(k, 1)]
  | (e, n) :: rest, k =>
    if e = k then (e, n + 1) :: rest else (e, n) :: bump rest k

/-- The quantize-and-count loop of getImageColors over the sampled pixels. -/
def buildCounts : List Pixel → List ((ℕ × ℕ × ℕ) × ℕ) → List ((ℕ × ℕ × ℕ) × ℕ)
  | [], acc => acc
  | px :: rest, acc =>
    buildCounts rest (if survives px then bump acc (binKey px) else acc)

/-- Count stored for a key in the ordered map: colorCounts[key] || 0. -/
def lookupCount : List ((ℕ × ℕ × ℕ) × ℕ) → (ℕ × ℕ × ℕ) → ℕ
  | [], _ => 0
  | (e, n) :: rest, k => if e = k then n else lookupCount rest k

/-- Object.entries(colorCounts) sorted by descending count (stable) and
mapped through toMorandi, as in getImageColors. -/
def sortedColors (counts : List ((ℕ × ℕ × ℕ) × ℕ)) : List String :=
  (counts.mergeSort (fun a b => decide (b.2 ≤ a.2))).map
    (fun e => toMorandi e.1.1 e.1.2.1 e.1.2.2)

/-- The pick-distinct loop of getImageColors (break at 5; keep a candidate
only when it differs from every kept color). -/
def selectDistinct : List String → List String → List String
  | [], pal => pal
  | c :: rest, pal =>
    if 5 ≤ pal.length then pal
    else if pal.contains c then selectDistinct rest pal
    else selectDistinct rest (pal ++ [c])

/-- Fallback palette defaultMorandi from getImageColors. -/
def defaultMorandi : List String :=
  ["#e2e4e9", "#dbeafe", "#f3e8ff", "#fae8ff", "#e0f2fe"]

/-- The padding while-loop of getImageColors: push defaultMorandi entries
cyclically while the palette is shorter than 5.  Each iteration grows the
palette by one, so running it with fuel 5 - length is exactly the loop. -/
def padLoop : ℕ → ℕ → List String → List String
  | 0, _, pal => pal
  | fuel + 1, fillIdx, pal =>
    if pal.length < 5 then
      padLoop fuel (fillIdx + 1)
        (pal ++ [defaultMorandi.getD (fillIdx % defaultMorandi.length) ""])
    else pal

/-- Input to palette derivation: a decode failure (img.onerror), a missing
2d sampling context, or the RGBA samples read back from the 50×50 canvas. -/
inductive ImageInput
  | decodeError
  | noCtx
  | pixels (data : List Pixel)

/-- Result shape of getImageColors. -/
structure PaletteResult where
  dominant : String
  palette : List String
deriving DecidableEq

/-- getImageColors from App.tsx, with the canvas sampling abstracted into
ImageInput (pure pipeline: quantize, sort, Morandi-map, pick distinct, pad). -/
def derivePalette : ImageInput → PaletteResult
  | .decodeError => ⟨ "#e5e5e5", []⟩
  | .noCtx => ⟨ "#e5e5e5", []⟩
  | .pixels data =>
    let sorted := sortedColors (buildCounts data [])
    let pal0 := if 0 < sorted.length then [sorted.headD ""] else []
    let pal1 := selectDistinct sorted.tail pal0
    let pal2 := padLoop (5 - pal1.length) 0 pal1
    ⟨pal2.headD "", pal2⟩

/-- Fallback palette used by MeshGradient when fewer than 3 colors arrive. -/
def meshFallback : List String :=
  ["#eef2ff", "#f0fdf4", "#fff1f2", "#fafaf9", "#f5f3ff"]

/-- The palette the shuffle actually operates on, per MeshGradient:
the incoming palette when it has at least 3 entries, else meshFallback. -/
def meshSource (palette : List String) : List String :=
  if 3 ≤ palette.length then palette else meshFallback

/-- The while-loop of MeshGradient: while colors.length < 5 push
colors[colors.length % colors.length], i.e. colors[0].  Each iteration grows
the list by one, so fuel 5 - length runs it exactly. -/
def meshPadLoop : ℕ → List String → List String
  | 0, colors => colors
  | fuel + 1, colors =>
    if colors.length < 5 then
      meshPadLoop fuel (colors ++ [colors.getD (colors.length % colors.length) ""])
    else colors

/-- Padding of the shuffle input to at least 5 entries, as in MeshGradient. -/
def meshPad (colors : List String) : List String :=
  meshPadLoop (5 - colors.length) colors

/-- The Fisher–Yates while-loop of MeshGradient.  sinF stands for Math.sin;
the generator draws jsFract (sinF state * 10000) and post-increments the
state.  Destructuring swap: both reads happen before either write. -/
def fyLoop (sinF : ℚ → ℚ) : ℕ → ℤ → List String → List String
  | 0, _, colors => colors
  | n + 1, st, colors =>
    let r := jsFract (sinF st * 10000)
    let randomIndex := (⌊r * (n + 1 : ℚ)⌋).toNat
    let a := colors.getD n ""
    let b := colors.getD randomIndex ""
    fyLoop sinF n (st + 1) ((colors.set n b).set randomIndex a)

/-- The seeded deterministic shuffle of MeshGradient (fallback substitution,
padding to 5, then seeded Fisher–Yates), with Math.sin passed as sinF. -/
def shuffleMesh (sinF : ℚ → ℚ) (palette : List String) (seed : ℤ) : List String :=
  let colors := meshPad (meshSource palette)
  fyLoop sinF colors.length seed colors

/-- The aspect setting: the string "auto", or the ratio string "W/H" with its
two Number-parsed components. -/
inductive AspectSetting
  | auto
  | ofRatio (rW rH : ℚ)
deriving DecidableEq

/-- The settings fields read by the layout engine in Canvas. -/
structure LayoutSettings where
  padding : ℚ
  inset : ℚ
  scale : ℚ
  aspect : AspectSetting
deriving DecidableEq

/-- The layout record produced by the layout engine in Canvas. -/
structure ComputedLayout where
  exportW : ℚ
  exportH : ℚ
  cardW : ℚ
  cardH : ℚ
deriving DecidableEq

/-- The all-zero layout returned while the image is not ready. -/
def zeroLayout : ComputedLayout := ⟨0, 0, 0, 0⟩

/-- The layout engine (--- 4. Layout Engine --- in Canvas): guard on a
missing image or zero natural width, then the card and export solve. -/
def layout (imagePresent : Bool) (natW natH : ℚ) (s : LayoutSettings) :
    ComputedLayout :=
  if imagePresent = false ∨ natW = 0 then zeroLayout
  else
    let displayScale := s.scale / 100
    let imageDisplayW := natW * displayScale
    let imageDisplayH := natH * displayScale
    let cardW := imageDisplayW + s.inset * 2
    let cardH := imageDisplayH + s.inset * 2
    match s.aspect with
    | .auto =>
      ⟨cardW + s.padding * 2, cardH + s.padding * 2, cardW, cardH⟩
    | .ofRatio rW rH =>
      let targetRatio := rW / rH
      let minExportW := cardW + s.padding * 2
      let minExportH := cardH + s.padding * 2
      let exportW := minExportW
      let exportH := exportW / targetRatio
      if exportH < minExportH then
        ⟨minExportH * targetRatio, minExportH, cardW, cardH⟩
      else
        ⟨exportW, exportH, cardW, cardH⟩

/-- Validity of the parsed aspect components (positive W and H). -/
def aspectOK : AspectSetting → Prop
  | .auto => True
  | .ofRatio rW rH => 0 < rW ∧ 0 < rH

/-- A width/height pair (the measured container). -/
structure Size where
  width : ℚ
  height : ℚ
deriving DecidableEq

/-- The viewport scaling memo (--- 5. Viewport Scaling --- in Canvas). -/
def viewportScale (container : Size) (L : ComputedLayout) : ℚ :=
  if container.width = 0 ∨ L.exportW = 0 then 0.1
  else
    let FILL : ℚ := 0.75
    let scaleX := container.width * FILL / L.exportW
    let scaleY := container.height * FILL / L.exportH
    min scaleX scaleY

/-- Math.round over the reals, as used by the shadow geometry. -/
noncomputable def jsRoundR (x : ℝ) : ℤ := ⌊x + 1/2⌋

/-- The pieces of the box-shadow string built in Canvas. -/
structure ShadowDescriptor where
  offsetX : ℤ
  offsetY : ℤ
  blurRadius : ℝ
  spreadRadius : ℝ
  alpha : ℝ

/-- The shadow geometry of Canvas: angleRad, dist, and the box-shadow
components (offsets rounded, blur, negated spread, alpha). -/
noncomputable def shadowDescriptor (shadow shadowAngle : ℝ) : ShadowDescriptor :=
  let angleRad := shadowAngle * Real.pi / 180
  let dist := shadow * 0.6
  { offsetX := jsRoundR (Real.cos angleRad * dist)
    offsetY := jsRoundR (Real.sin angleRad * dist)
    blurRadius := shadow * 1.2
    spreadRadius := -(shadow * 0.1)
    alpha := 0.15 + shadow / 250 }

/-! ### Helper lemmas -/

theorem viewportScale_eq (container : Size) (L : ComputedLayout)
    (hcw : container.width ≠ 0) (heW : L.exportW ≠ 0) :
    viewportScale container L =
      min (container.width * 0.75 / L.exportW)
        (container.height * 0.75 / L.exportH) := by
  unfold viewportScale
  rw [if_neg (by push_neg; exact ⟨hcw, heW⟩)]

theorem layout_exportW_pos (natW natH : ℚ) (s : LayoutSettings) (hW : 0 < natW)
    (hsc : 0 < s.scale) (hin : 0 ≤ s.inset) (hpad : 0 ≤ s.padding)
    (ha : aspectOK s.aspect) : 0 < (layout true natW natH s).exportW := by
  obtain ⟨pad, ins, sc, asp⟩ := s
  simp only at hsc hin hpad ha
  have hcW : 0 < natW * (sc / 100) + ins * 2 := by
    have : 0 < natW * (sc / 100) := by positivity
    linarith
  unfold layout
  rw [if_neg (by simp [hW.ne'])]
  cases asp with
  | auto =>
    simp only
    linarith
  | ofRatio rW rH =>
    obtain ⟨hrW, hrH⟩ := ha
    have hr : 0 < rW / rH := div_pos hrW hrH
    have hmW : 0 < natW * (sc / 100) + ins * 2 + pad * 2 := by linarith
    simp only
    split_ifs with hc
    · exact mul_pos (lt_trans (div_pos hmW hr) hc) hr
    · exact hmW

theorem layout_exportH_pos (natW natH : ℚ) (s : LayoutSettings) (hW : 0 < natW)
    (hH0 : 0 ≤ natH) (hsc : 0 < s.scale) (hin : 0 ≤ s.inset)
    (hpad : 0 < s.padding) (ha : aspectOK s.aspect) :
    0 < (layout true natW natH s).exportH := by
  obtain ⟨pad, ins, sc, asp⟩ := s
  simp only at hsc hin hpad ha
  have hcH : 0 ≤ natH * (sc / 100) + ins * 2 := by positivity
  have hmH : 0 < natH * (sc / 100) + ins * 2 + pad * 2 := by linarith
  unfold layout
  rw [if_neg (by simp [hW.ne'])]
  cases asp with
  | auto =>
    simp only
    linarith
  | ofRatio rW rH =>
    simp only
    split_ifs with hc
    · exact hmH
    · exact lt_of_lt_of_le hmH (not_lt.mp hc)

theorem layout_cardH_eq (natW natH : ℚ) (s : LayoutSettings) (hW : natW ≠ 0) :
    (layout true natW natH s).cardH = natH * (s.scale / 100) + s.inset * 2 := by
  obtain ⟨pad, ins, sc, asp⟩ := s
  unfold layout
  rw [if_neg (by simp [hW])]
  cases asp with
  | auto => rfl
  | ofRatio rW rH =>
    simp only
    split_ifs <;> rfl

theorem rgbToHsl_sl_bounds (r g b : ℚ) (hr0 : 0 ≤ r) (hr : r ≤ 255)
    (hg0 : 0 ≤ g) (hg : g ≤ 255) (hb0 : 0 ≤ b) (hb : b ≤ 255) :
    0 ≤ (rgbToHsl r g b).2.1 ∧ 0 ≤ (rgbToHsl r g b).2.2 ∧
      (rgbToHsl r g b).2.2 ≤ 1 := by
  have hr'0 : 0 ≤ r / 255 := by positivity
  have hg'0 : 0 ≤ g / 255 := by positivity
  have hb'0 : 0 ≤ b / 255 := by positivity
  have hr'1 : r / 255 ≤ 1 := by rw [div_le_one (by norm_num : (0:ℚ) < 255)]; exact hr
  have hg'1 : g / 255 ≤ 1 := by rw [div_le_one (by norm_num : (0:ℚ) < 255)]; exact hg
  have hb'1 : b / 255 ≤ 1 := by rw [div_le_one (by norm_num : (0:ℚ) < 255)]; exact hb
  simp only [rgbToHsl]
  set mx := max (r / 255) (max (g / 255) (b / 255)) with hmx
  set mn := min (r / 255) (min (g / 255) (b / 255)) with hmn
  have hmx1 : mx ≤ 1 := max_le hr'1 (max_le hg'1 hb'1)
  have hmn0 : 0 ≤ mn := le_min hr'0 (le_min hg'0 hb'0)
  have hmnmx : mn ≤ mx := le_trans (min_le_left _ _) (le_max_left _ _)
  have hl0 : 0 ≤ (mx + mn) / 2 := by positivity
  have hl1 : (mx + mn) / 2 ≤ 1 := by
    have : mn ≤ 1 := le_trans hmnmx hmx1
    linarith
  split_ifs <;>
    first
      | exact ⟨le_refl 0, hl0, hl1⟩
      | exact ⟨div_nonneg (by linarith) (by linarith), hl0, hl1⟩

theorem lookupCount_bump : ∀ (m : List ((ℕ × ℕ × ℕ) × ℕ)) (kk k : ℕ × ℕ × ℕ),
    lookupCount (bump m kk) k = lookupCount m k + (if kk = k then 1 else 0)
  | [], kk, k => by
    simp only [bump, lookupCount]
    by_cases h : kk = k <;> simp [h]
  | (e, n) :: rest, kk, k => by
    simp only [bump]
    by_cases h1 : e = kk
    · rw [if_pos h1]
      simp only [lookupCount]
      by_cases h2 : e = k
      · rw [if_pos h2, if_pos h2, if_pos (h1.symm.trans h2)]
      · rw [if_neg h2, if_neg h2, if_neg (fun hk => h2 (h1.trans hk))]
        omega
    · rw [if_neg h1]
      simp only [lookupCount]
      by_cases h2 : e = k
      · rw [if_pos h2, if_pos h2, if_neg (fun hk => h1 (h2.trans hk.symm))]
        omega
      · rw [if_neg h2, if_neg h2]
        exact lookupCount_bump rest kk k

theorem lookupCount_buildCounts : ∀ (l : List Pixel)
    (acc : List ((ℕ × ℕ × ℕ) × ℕ)) (k : ℕ × ℕ × ℕ),
    lookupCount (buildCounts l acc) k = lookupCount acc k +
      ((l.filter (fun q => survives q)).filter (fun q => binKey q == k)).length
  | [], acc, k => by simp [buildCounts]
  | px :: rest, acc, k => by
    simp only [buildCounts]
    by_cases hs : survives px = true
    · rw [if_pos hs, lookupCount_buildCounts rest _ k, lookupCount_bump]
      by_cases hbk : binKey px = k
      · simp [List.filter_cons, hs, hbk]
        omega
      · simp [List.filter_cons, hs, hbk]
    · rw [if_neg hs, lookupCount_buildCounts rest acc k]
      simp [List.filter_cons, hs]

theorem selectDistinct_length_le : ∀ (cs pal : List String),
    pal.length ≤ 5 → (selectDistinct cs pal).length ≤ 5
  | [], _, h => h
  | c :: rest, pal, h => by
    simp only [selectDistinct]
    split_ifs with h5 hc
    · exact h
    · exact selectDistinct_length_le rest pal h
    · exact selectDistinct_length_le rest (pal ++ [c]) (by simp; omega)

theorem padLoop_length : ∀ (fuel fillIdx : ℕ) (pal : List String),
    5 ≤ pal.length + fuel → pal.length ≤ 5 →
    (padLoop fuel fillIdx pal).length = 5
  | 0, _, pal, h1, h2 => by
    simp only [padLoop]
    omega
  | fuel + 1, fillIdx, pal, h1, h2 => by
    simp only [padLoop]
    split_ifs with h
    · exact padLoop_length fuel (fillIdx + 1) _ (by simp; omega) (by simp; omega)
    · omega

/-! ### Claim theorems -/

/-- Claim C8 (amended): a sampled pixel contributes to a bin if and only if
its alpha is at least 128 and its mean brightness lies in the closed interval
[60, 230] (the source keeps the boundary values); every surviving pixel is
binned under its floored-to-32 key, and each bin count equals the number of
surviving pixels mapping to that key. -/
theorem quantizer_counts (pixels : List Pixel) (k : ℕ × ℕ × ℕ) (px : Pixel) :
    lookupCount (buildCounts pixels []) k =
      ((pixels.filter (fun q => survives q)).filter
        (fun q => binKey q == k)).length ∧
    (survives px = true ↔
      128 ≤ px.a ∧ 60 ≤ brightness px ∧ brightness px ≤ 230) := by
  constructor
  · rw [lookupCount_buildCounts]
    simp [lookupCount]
  · unfold survives
    split_ifs with h1 h2 h3
    · simp only [false_iff]
      rintro ⟨ha, _, _⟩
      omega
    · simp only [false_iff]
      rintro ⟨_, hb, _⟩
      linarith
    · simp only [false_iff]
      rintro ⟨_, _, hb⟩
      linarith
    · simp only [true_iff]
      exact ⟨by omega, by linarith [not_lt.mp h2], by linarith [not_lt.mp h3]⟩

/-- Claim C8 counterexample: the pixel (60,60,60,255) has mean brightness
exactly 60, which is not strictly above 60, yet the source keeps it and
counts it in bin (32,32,32), so the strict-inequality claim is false. -/
theorem quantizer_boundary_counterexample :
    survives ⟨60, 60, 60, 255⟩ = true ∧
    lookupCount (buildCounts [⟨60, 60, 60, 255⟩] []) (32, 32, 32) = 1 ∧
    ¬ (60 < brightness ⟨60, 60, 60, 255⟩) := by
  have hbr : brightness ⟨60, 60, 60, 255⟩ = 60 := by
    unfold brightness
    norm_num
  have hs : survives ⟨60, 60, 60, 255⟩ = true := by
    unfold survives
    rw [hbr]
    norm_num
  have hkey : binKey ⟨60, 60, 60, 255⟩ = (32, 32, 32) := by
    unfold binKey
    norm_num
  refine ⟨hs, ?_, by rw [hbr]; norm_num⟩
  have hbc : buildCounts [⟨60, 60, 60, 255⟩] [] = [((32, 32, 32), 1)] := by
    simp only [buildCounts]
    rw [if_pos hs]
    simp only [bump]
    rw [hkey]
  rw [hbc]
  simp [lookupCount]

theorem jsFract_nonneg (x : ℚ) : 0 ≤ jsFract x := by
  unfold jsFract
  linarith [Int.floor_le x]

theorem jsFract_lt_one (x : ℚ) : jsFract x < 1 := by
  unfold jsFract
  linarith [Int.lt_floor_add_one x]

theorem getD_cons_set_perm : ∀ (t : List String) (m : ℕ) (x : String),
    m < t.length → (t.getD m "" :: t.set m x).Perm (x :: t)
  | y :: t2, 0, x, _ => by
    simp only [List.getD_cons_zero, List.set]
    exact List.Perm.swap x y t2
  | y :: t2, m + 1, x, h => by
    simp only [List.getD_cons_succ, List.set]
    have ih := getD_cons_set_perm t2 m x (by simpa using h)
    have step1 : (t2.getD m "" :: y :: t2.set m x).Perm
        (y :: t2.getD m "" :: t2.set m x) :=
      List.Perm.swap y (t2.getD m "") (t2.set m x)
    exact (step1.trans (ih.cons y)).trans (List.Perm.swap x y t2)
  | [], m, x, h => by simp at h

theorem set_set_swap_perm : ∀ (l : List String) (i j : ℕ),
    i < l.length → j < l.length →
    ((l.set i (l.getD j "")).set j (l.getD i "")).Perm l
  | [], _, _, hi, _ => by simp at hi
  | x :: t, 0, 0, _, _ => by
    simp only [List.getD_cons_zero, List.set]
    exact List.Perm.refl _
  | x :: t, 0, j + 1, _, hj => by
    simp only [List.getD_cons_zero, List.getD_cons_succ, List.set]
    exact getD_cons_set_perm t j x (by simpa using hj)
  | x :: t, i + 1, 0, hi, _ => by
    simp only [List.getD_cons_zero, List.getD_cons_succ, List.set]
    exact getD_cons_set_perm t i x (by simpa using hi)
  | x :: t, i + 1, j + 1, hi, hj => by
    simp only [List.getD_cons_succ, List.set]
    exact (set_set_swap_perm t i j (by simpa using hi) (by simpa using hj)).cons x

theorem fyLoop_perm (sinF : ℚ → ℚ) : ∀ (n : ℕ) (st : ℤ) (colors : List String),
    n ≤ colors.length → (fyLoop sinF n st colors).Perm colors
  | 0, _, colors, _ => List.Perm.refl colors
  | n + 1, st, colors, h => by
    simp only [fyLoop]
    have h0 := jsFract_nonneg (sinF st * 10000)
    have h1 := jsFract_lt_one (sinF st * 10000)
    have hflt : ⌊jsFract (sinF st * 10000) * (n + 1 : ℚ)⌋ < ((n : ℤ) + 1) := by
      rw [Int.floor_lt]
      have hmul : jsFract (sinF st * 10000) * (n + 1 : ℚ) < 1 * (n + 1 : ℚ) :=
        mul_lt_mul_of_pos_right h1 (by positivity)
      push_cast
      linarith
    have hri : (⌊jsFract (sinF st * 10000) * (n + 1 : ℚ)⌋).toNat < n + 1 := by
      omega
    have hswap := set_set_swap_perm colors n
      (⌊jsFract (sinF st * 10000) * (n + 1 : ℚ)⌋).toNat (by omega) (by omega)
    have hrec := fyLoop_perm sinF n (st + 1)
      ((colors.set n (colors.getD
          (⌊jsFract (sinF st * 10000) * (n + 1 : ℚ)⌋).toNat "")).set
        (⌊jsFract (sinF st * 10000) * (n + 1 : ℚ)⌋).toNat (colors.getD n ""))
      (by rw [List.length_set, List.length_set]; omega)
    exact hrec.trans hswap

/-- Claim C4 (amended): shuffleMesh is deterministic, and its output is a
permutation of the padded shuffle source: the input palette itself when it
has at least 3 entries, else the fixed fallback palette (the source swaps in
the fallback below 3 entries, so the output is not in general a permutation
of the padded input; see the counterexample). -/
theorem shuffleMesh_deterministic_perm (sinF : ℚ → ℚ) (palette : List String)
    (seed : ℤ) :
    shuffleMesh sinF palette seed = shuffleMesh sinF palette seed ∧
    (shuffleMesh sinF palette seed).Perm (meshPad (meshSource palette)) ∧
    (3 ≤ palette.length →
      (shuffleMesh sinF palette seed).Perm (meshPad palette)) := by
  have hperm : (shuffleMesh sinF palette seed).Perm
      (meshPad (meshSource palette)) := by
    unfold shuffleMesh
    exact fyLoop_perm sinF _ seed _ (le_refl _)
  refine ⟨rfl, hperm, fun h3 => ?_⟩
  have hsrc : meshSource palette = palette := by
    unfold meshSource
    rw [if_pos h3]
  rwa [hsrc] at hperm

/-- Claim C4 witness at a 3-color palette with the constant-zero sine. -/
theorem shuffleMesh_deterministic_perm_witness :
    3 ≤ ([ "#111111", "#222222", "#333333"] : List String).length ∧
    (shuffleMesh (fun _ => 0) [ "#111111", "#222222", "#333333"] 1).Perm
      (meshPad [ "#111111", "#222222", "#333333"]) :=
  ⟨by decide,
    (shuffleMesh_deterministic_perm (fun _ => 0)
      [ "#111111", "#222222", "#333333"] 1).2.2 (by decide)⟩

/-- Claim C4 counterexample: for the single-entry palette ["#111111"] the
source swaps in the fallback palette before shuffling, so the output is not
a permutation of the multiset obtained by padding the input palette. -/
theorem shuffleMesh_counterexample :
    ¬ (shuffleMesh (fun _ => 0) [ "#111111"] 1).Perm (meshPad [ "#111111"]) := by
  intro hclaim
  have hsrc : meshSource [ "#111111"] = meshFallback := by decide
  have hfb : (shuffleMesh (fun _ => 0) [ "#111111"] 1).Perm
      (meshPad meshFallback) := by
    unfold shuffleMesh
    rw [hsrc]
    exact fyLoop_perm (fun _ => 0) _ 1 _ (le_refl _)
  have hcontra : (meshPad meshFallback).Perm (meshPad [ "#111111"]) :=
    hfb.symm.trans hclaim
  have hne : ¬ (meshPad meshFallback).Perm (meshPad [ "#111111"]) := by decide
  exact hne hcontra

/-- Claim C10: every draw of the seeded generator lies in [0,1), hence every
Fisher–Yates index floor(random()·currentIndex) is in range for a positive
currentIndex, and the shuffle output has the same length as the padded
shuffle input (all accesses stay in bounds). -/
theorem generator_draw_in_range (x : ℚ) (n : ℕ) (hn : 0 < n) (sinF : ℚ → ℚ)
    (palette : List String) (seed : ℤ) :
    0 ≤ jsFract x ∧ jsFract x < 1 ∧
    (⌊jsFract x * (n : ℚ)⌋).toNat < n ∧
    (shuffleMesh sinF palette seed).length =
      (meshPad (meshSource palette)).length := by
  refine ⟨jsFract_nonneg x, jsFract_lt_one x, ?_, ?_⟩
  · have h0 := jsFract_nonneg x
    have h1 := jsFract_lt_one x
    have hflt : ⌊jsFract x * (n : ℚ)⌋ < (n : ℤ) := by
      rw [Int.floor_lt]
      have hmul : jsFract x * (n : ℚ) < 1 * (n : ℚ) :=
        mul_lt_mul_of_pos_right h1 (by exact_mod_cast hn)
      push_cast
      linarith
    omega
  · unfold shuffleMesh
    exact (fyLoop_perm sinF _ seed _ (le_refl _)).length_eq

/-- Claim C10 witness at x = 37/10, currentIndex 5, the empty palette. -/
theorem generator_draw_in_range_witness :
    0 < 5 ∧
    (0 ≤ jsFract (37/10) ∧ jsFract (37/10) < 1 ∧
      (⌊jsFract (37/10) * ((5 : ℕ) : ℚ)⌋).toNat < 5 ∧
      (shuffleMesh (fun _ => 0) [] 1).length =
        (meshPad (meshSource [])).length) :=
  ⟨by norm_num, generator_draw_in_range (37/10) 5 (by norm_num) (fun _ => 0) [] 1⟩

/-- Claim C1 (amended): for every successfully sampled pixel input the
derived palette has length exactly 5, padded deterministically with the
fixed fallback list (an empty sample yields exactly the fallback list with
dominant "#e2e4e9"); a decode failure or missing 2d context instead yields
the empty palette with fallback dominant "#e5e5e5". -/
theorem derivePalette_length (data : List Pixel) :
    (derivePalette (.pixels data)).palette.length = 5 ∧
    derivePalette .decodeError = ⟨ "#e5e5e5", []⟩ ∧
    derivePalette .noCtx = ⟨ "#e5e5e5", []⟩ ∧
    derivePalette (.pixels []) = ⟨ "#e2e4e9", defaultMorandi⟩ := by
  have hlen : ∀ d : List Pixel, (derivePalette (.pixels d)).palette.length = 5 := by
    intro d
    simp only [derivePalette]
    have h0 : (if 0 < (sortedColors (buildCounts d [])).length
        then [(sortedColors (buildCounts d [])).headD ""] else []).length ≤ 5 := by
      split_ifs <;> simp
    have h1 := selectDistinct_length_le (sortedColors (buildCounts d [])).tail _ h0
    exact padLoop_length _ 0 _ (by omega) h1
  have hempty : derivePalette (.pixels []) = ⟨ "#e2e4e9", defaultMorandi⟩ := by
    have hsc : sortedColors (buildCounts [] []) = [] := by
      simp only [buildCounts, sortedColors]
      rw [List.mergeSort_nil]
      rfl
    simp only [derivePalette, hsc]
    rfl
  exact ⟨hlen data, rfl, rfl, hempty⟩

/-- Claim C1 counterexample: on a decode failure (img.onerror) the source
resolves with an empty palette, not one of length 5. -/
theorem derivePalette_error_counterexample :
    ¬ ((derivePalette ImageInput.decodeError).palette.length = 5) := by
  decide

/-- Claim C3 (amended): for every (r,g,b) with channels in [0,255], the HSL
pair the Morandi transform computes before hex encoding has saturation in
[0.05, 0.15] and lightness in [0.75, 0.85].  (The 8-bit hex encoding can
push the decoded values just outside the band; see the counterexample.) -/
theorem morandi_band (r g b : ℚ) (hr0 : 0 ≤ r) (hr : r ≤ 255)
    (hg0 : 0 ≤ g) (hg : g ≤ 255) (hb0 : 0 ≤ b) (hb : b ≤ 255) :
    0.05 ≤ (toMorandiHsl r g b).2.1 ∧ (toMorandiHsl r g b).2.1 ≤ 0.15 ∧
    0.75 ≤ (toMorandiHsl r g b).2.2 ∧ (toMorandiHsl r g b).2.2 ≤ 0.85 := by
  obtain ⟨hs0, hl0, hl1⟩ := rgbToHsl_sl_bounds r g b hr0 hr hg0 hg hb0 hb
  simp only [toMorandiHsl]
  set s := (rgbToHsl r g b).2.1 with hs
  set l := (rgbToHsl r g b).2.2 with hl
  have hmins0 : 0 ≤ min s 0.5 := le_min hs0 (by norm_num)
  have hmins1 : min s 0.5 ≤ 0.5 := min_le_right _ _
  have hminl0 : 0 ≤ min l 1 := le_min hl0 (by norm_num)
  have hminl1 : min l 1 ≤ 1 := min_le_right _ _
  refine ⟨by nlinarith, by nlinarith, by nlinarith, by nlinarith⟩

/-- Claim C3 witness at (100, 150, 200). -/
theorem morandi_band_witness :
    (0 : ℚ) ≤ 100 ∧ (100 : ℚ) ≤ 255 ∧ (0 : ℚ) ≤ 150 ∧ (150 : ℚ) ≤ 255 ∧
    (0 : ℚ) ≤ 200 ∧ (200 : ℚ) ≤ 255 ∧
    (0.05 ≤ (toMorandiHsl 100 150 200).2.1 ∧
      (toMorandiHsl 100 150 200).2.1 ≤ 0.15 ∧
      0.75 ≤ (toMorandiHsl 100 150 200).2.2 ∧
      (toMorandiHsl 100 150 200).2.2 ≤ 0.85) :=
  ⟨by norm_num, by norm_num, by norm_num, by norm_num, by norm_num, by norm_num,
    morandi_band 100 150 200 (by norm_num) (by norm_num) (by norm_num)
      (by norm_num) (by norm_num) (by norm_num)⟩

/-- Claim C3 counterexample: the white input (255,255,255) maps to newL = 0.85
and encodes to "#dbd7d7" (channels 219, 215, 215); decoding those channels
back through rgbToHsl gives lightness 217/255 > 0.85, so the claim is false
of the decoded hex output. -/
theorem morandi_decode_counterexample :
    morandiChannels 255 255 255 = (219, 215, 215) ∧
    toMorandi 255 255 255 = "#dbd7d7" ∧
    ¬ ((rgbToHsl 219 215 215).2.2 ≤ 0.85) := by
  have h1 : rgbToHsl 255 255 255 = (0, 0, 1) := by
    unfold rgbToHsl
    norm_num
  have h2 : toMorandiHsl 255 255 255 = (0, 0.05, 0.85) := by
    unfold toMorandiHsl
    rw [h1]
    norm_num
  have h3 : hslToHexChannels 0 0.05 0.85 = (219, 215, 215) := by
    unfold hslToHexChannels hue2rgb jsRound
    norm_num [Int.floor_eq_iff]
  have h4 : morandiChannels 255 255 255 = (219, 215, 215) := by
    unfold morandiChannels
    rw [h2]
    exact h3
  have h6 : rgbToHsl 219 215 215 = (0, 1/19, 217/255) := by
    unfold rgbToHsl
    norm_num [max_def, min_def]
  refine ⟨h4, ?_, by rw [h6]; norm_num⟩
  unfold toMorandi hslToHex
  rw [h2]
  show "#" ++ toHex (hslToHexChannels 0 0.05 0.85).1 ++
      toHex (hslToHexChannels 0 0.05 0.85).2.1 ++
      toHex (hslToHexChannels 0 0.05 0.85).2.2 = "#dbd7d7"
  rw [h3]
  decide

/-- Claim C5: when container and layout dimensions are all positive, the
viewport scale applied to the export size fits within 0.75 of the container
on both axes, with equality on at least one axis. -/
theorem viewportScale_fits (container : Size) (L : ComputedLayout)
    (hcw : 0 < container.width) (hch0 : 0 < container.height)
    (heW : 0 < L.exportW) (heH : 0 < L.exportH) :
    viewportScale container L * L.exportW ≤ 0.75 * container.width ∧
    viewportScale container L * L.exportH ≤ 0.75 * container.height ∧
    (viewportScale container L * L.exportW = 0.75 * container.width ∨
     viewportScale container L * L.exportH = 0.75 * container.height) := by
  rw [viewportScale_eq container L hcw.ne' heW.ne']
  set sx := container.width * 0.75 / L.exportW with hsx
  set sy := container.height * 0.75 / L.exportH with hsy
  have hxe : sx * L.exportW = 0.75 * container.width := by
    rw [hsx, div_mul_cancel₀ _ heW.ne']; ring
  have hye : sy * L.exportH = 0.75 * container.height := by
    rw [hsy, div_mul_cancel₀ _ heH.ne']; ring
  refine ⟨?_, ?_, ?_⟩
  · calc min sx sy * L.exportW ≤ sx * L.exportW :=
          mul_le_mul_of_nonneg_right (min_le_left _ _) heW.le
      _ = 0.75 * container.width := hxe
  · calc min sx sy * L.exportH ≤ sy * L.exportH :=
          mul_le_mul_of_nonneg_right (min_le_right _ _) heH.le
      _ = 0.75 * container.height := hye
  · rcases min_choice sx sy with h | h
    · exact Or.inl (by rw [h, hxe])
    · exact Or.inr (by rw [h, hye])

/-- Claim C5 witness at container 800×600 and export 1160×1160. -/
theorem viewportScale_fits_witness :
    (0 : ℚ) < (Size.mk 800 600).width ∧ (0 : ℚ) < (Size.mk 800 600).height ∧
    (0 : ℚ) < (ComputedLayout.mk 1160 1160 1032 532).exportW ∧
    (0 : ℚ) < (ComputedLayout.mk 1160 1160 1032 532).exportH ∧
    (viewportScale (Size.mk 800 600) (ComputedLayout.mk 1160 1160 1032 532) *
        (ComputedLayout.mk 1160 1160 1032 532).exportW ≤
        0.75 * (Size.mk 800 600).width ∧
      viewportScale (Size.mk 800 600) (ComputedLayout.mk 1160 1160 1032 532) *
        (ComputedLayout.mk 1160 1160 1032 532).exportH ≤
        0.75 * (Size.mk 800 600).height ∧
      (viewportScale (Size.mk 800 600) (ComputedLayout.mk 1160 1160 1032 532) *
          (ComputedLayout.mk 1160 1160 1032 532).exportW =
          0.75 * (Size.mk 800 600).width ∨
        viewportScale (Size.mk 800 600) (ComputedLayout.mk 1160 1160 1032 532) *
          (ComputedLayout.mk 1160 1160 1032 532).exportH =
          0.75 * (Size.mk 800 600).height)) :=
  ⟨by norm_num, by norm_num, by norm_num, by norm_num,
    viewportScale_fits (Size.mk 800 600) (ComputedLayout.mk 1160 1160 1032 532)
      (by norm_num) (by norm_num) (by norm_num) (by norm_num)⟩

/-- Claim C2: for positive natural sizes and a positive parsed ratio, the
fixed-ratio layout has exportW/exportH exactly the target ratio and contains
the minimum bounding box on both axes; the 1000×500 scenario with scale 100,
inset 16, padding 64 and ratio 1/1 exports at 1160×1160. -/
theorem layout_ratio_exact (natW natH padding inset scale rW rH : ℚ)
    (hW : 0 < natW) (hH0 : 0 < natH) (hsc : 0 < scale) (hin : 0 ≤ inset)
    (hpad : 0 ≤ padding) (hrW : 0 < rW) (hrH : 0 < rH) :
    (layout true natW natH ⟨padding, inset, scale, .ofRatio rW rH⟩).exportW /
        (layout true natW natH ⟨padding, inset, scale, .ofRatio rW rH⟩).exportH =
      rW / rH ∧
    (layout true natW natH ⟨padding, inset, scale, .ofRatio rW rH⟩).cardW +
        padding * 2 ≤
      (layout true natW natH ⟨padding, inset, scale, .ofRatio rW rH⟩).exportW ∧
    (layout true natW natH ⟨padding, inset, scale, .ofRatio rW rH⟩).cardH +
        padding * 2 ≤
      (layout true natW natH ⟨padding, inset, scale, .ofRatio rW rH⟩).exportH ∧
    layout true 1000 500 ⟨64, 16, 100, .ofRatio 1 1⟩ =
      ⟨1160, 1160, 1032, 532⟩ := by
  have hne : ¬ (true = false ∨ natW = 0) := by simp [hW.ne']
  have hr : 0 < rW / rH := div_pos hrW hrH
  have hcW : 0 < natW * (scale / 100) + inset * 2 := by
    have : 0 < natW * (scale / 100) := by positivity
    linarith
  have hmW : 0 < natW * (scale / 100) + inset * 2 + padding * 2 := by linarith
  have hL : layout true natW natH ⟨padding, inset, scale, .ofRatio rW rH⟩ =
      if (natW * (scale / 100) + inset * 2 + padding * 2) / (rW / rH) <
          natH * (scale / 100) + inset * 2 + padding * 2 then
        ⟨(natH * (scale / 100) + inset * 2 + padding * 2) * (rW / rH),
          natH * (scale / 100) + inset * 2 + padding * 2,
          natW * (scale / 100) + inset * 2, natH * (scale / 100) + inset * 2⟩
      else
        ⟨natW * (scale / 100) + inset * 2 + padding * 2,
          (natW * (scale / 100) + inset * 2 + padding * 2) / (rW / rH),
          natW * (scale / 100) + inset * 2, natH * (scale / 100) + inset * 2⟩ := by
    unfold layout
    rw [if_neg hne]
  have hscenario : layout true 1000 500 ⟨64, 16, 100, .ofRatio 1 1⟩ =
      ⟨1160, 1160, 1032, 532⟩ := by
    unfold layout
    rw [if_neg (by norm_num)]
    norm_num
  by_cases hc : (natW * (scale / 100) + inset * 2 + padding * 2) / (rW / rH) <
      natH * (scale / 100) + inset * 2 + padding * 2
  · rw [if_pos hc] at hL
    have hmH : 0 < natH * (scale / 100) + inset * 2 + padding * 2 :=
      lt_trans (div_pos hmW hr) hc
    refine ⟨?_, ?_, ?_, hscenario⟩
    · rw [hL]
      show (natH * (scale / 100) + inset * 2 + padding * 2) * (rW / rH) /
          (natH * (scale / 100) + inset * 2 + padding * 2) = rW / rH
      rw [mul_comm, mul_div_assoc, div_self hmH.ne', mul_one]
    · rw [hL]
      show natW * (scale / 100) + inset * 2 + padding * 2 ≤
        (natH * (scale / 100) + inset * 2 + padding * 2) * (rW / rH)
      exact le_of_lt ((div_lt_iff₀ hr).mp hc)
    · rw [hL]
  · rw [if_neg hc] at hL
    refine ⟨?_, ?_, ?_, hscenario⟩
    · rw [hL]
      show (natW * (scale / 100) + inset * 2 + padding * 2) /
          ((natW * (scale / 100) + inset * 2 + padding * 2) / (rW / rH)) = rW / rH
      rw [div_div_eq_mul_div, mul_comm, mul_div_assoc, div_self hmW.ne', mul_one]
    · rw [hL]
    · rw [hL]
      exact not_lt.mp hc

/-- Claim C2 witness at the 1000×500, scale 100, inset 16, padding 64,
ratio 1/1 scenario. -/
theorem layout_ratio_exact_witness :
    (0 : ℚ) < 1000 ∧ (0 : ℚ) < 500 ∧ (0 : ℚ) < 100 ∧ (0 : ℚ) ≤ 16 ∧
    (0 : ℚ) ≤ 64 ∧ (0 : ℚ) < 1 ∧
    ((layout true 1000 500 ⟨64, 16, 100, .ofRatio 1 1⟩).exportW /
        (layout true 1000 500 ⟨64, 16, 100, .ofRatio 1 1⟩).exportH = 1 / 1 ∧
      (layout true 1000 500 ⟨64, 16, 100, .ofRatio 1 1⟩).cardW + 64 * 2 ≤
        (layout true 1000 500 ⟨64, 16, 100, .ofRatio 1 1⟩).exportW ∧
      (layout true 1000 500 ⟨64, 16, 100, .ofRatio 1 1⟩).cardH + 64 * 2 ≤
        (layout true 1000 500 ⟨64, 16, 100, .ofRatio 1 1⟩).exportH ∧
      layout true 1000 500 ⟨64, 16, 100, .ofRatio 1 1⟩ =
        ⟨1160, 1160, 1032, 532⟩) :=
  ⟨by norm_num, by norm_num, by norm_num, by norm_num, by norm_num, by norm_num,
    layout_ratio_exact 1000 500 64 16 100 1 1 (by norm_num) (by norm_num)
      (by norm_num) (by norm_num) (by norm_num) (by norm_num) (by norm_num)⟩

/-- Claim C9: the layout is all-zero exactly when the image is absent or the
natural width is zero; a ready image with positive width and zero height
yields cardH = 2·inset and, with positive padding, positive export sizes. -/
theorem layout_zero_iff (present : Bool) (natW natH : ℚ) (s : LayoutSettings)
    (hW0 : 0 ≤ natW) (hsc : 10 ≤ s.scale) (hin : 0 ≤ s.inset)
    (hpad : 0 ≤ s.padding) (ha : aspectOK s.aspect) :
    (layout present natW natH s = zeroLayout ↔ present = false ∨ natW = 0) ∧
    (present = true → 0 < natW → natH = 0 →
      (layout present natW natH s).cardH = s.inset * 2 ∧
      (0 < s.padding →
        0 < (layout present natW natH s).exportW ∧
        0 < (layout present natW natH s).exportH)) := by
  have hsc0 : 0 < s.scale := lt_of_lt_of_le (by norm_num) hsc
  constructor
  · constructor
    · intro hz
      by_contra hcon
      push_neg at hcon
      obtain ⟨hpres, hWne⟩ := hcon
      have hpres : present = true := by
        cases present
        · exact absurd rfl hpres
        · rfl
      subst hpres
      have hWpos : 0 < natW := lt_of_le_of_ne hW0 (Ne.symm hWne)
      have := layout_exportW_pos natW natH s hWpos hsc0 hin hpad ha
      rw [hz] at this
      exact absurd this (by norm_num [zeroLayout])
    · intro h
      unfold layout
      rw [if_pos h]
  · intro hpres hWpos hH
    subst hpres
    subst hH
    refine ⟨?_, fun hpadpos =>
      ⟨layout_exportW_pos natW 0 s hWpos hsc0 hin hpad ha,
        layout_exportH_pos natW 0 s hWpos (le_refl 0) hsc0 hin hpadpos ha⟩⟩
    rw [layout_cardH_eq natW 0 s hWpos.ne']
    ring

/-- Claim C9 witness at a present 1000×0 image with the default settings. -/
theorem layout_zero_iff_witness :
    (0 : ℚ) ≤ 1000 ∧ (10 : ℚ) ≤ (100 : ℚ) ∧ (0 : ℚ) ≤ 16 ∧ (0 : ℚ) ≤ 64 ∧
    aspectOK AspectSetting.auto ∧
    ((layout true 1000 0 ⟨64, 16, 100, AspectSetting.auto⟩ = zeroLayout ↔
        true = false ∨ (1000 : ℚ) = 0) ∧
      (true = true → (0 : ℚ) < 1000 → (0 : ℚ) = 0 →
        (layout true 1000 0 ⟨64, 16, 100, AspectSetting.auto⟩).cardH =
          (16 : ℚ) * 2 ∧
        ((0 : ℚ) < 64 →
          0 < (layout true 1000 0 ⟨64, 16, 100, AspectSetting.auto⟩).exportW ∧
          0 < (layout true 1000 0 ⟨64, 16, 100, AspectSetting.auto⟩).exportH))) :=
  ⟨by norm_num, by norm_num, by norm_num, by norm_num, trivial,
    layout_zero_iff true 1000 0 ⟨64, 16, 100, AspectSetting.auto⟩ (by norm_num)
      (by norm_num) (by norm_num) (by norm_num) trivial⟩

/-- Claim C7: the shadow descriptor realizes the documented formulas, alpha
lies in [0.15, 0.55] for shadow in [0, 100], and the scenario shadow = 40,
shadowAngle = 135 yields offsets (-17, 17), blur 48, spread -4, alpha 0.31. -/
theorem shadow_geometry (shadow angle : ℝ) (h0 : 0 ≤ shadow)
    (h1 : shadow ≤ 100) :
    (shadowDescriptor shadow angle).offsetX =
      jsRoundR (Real.cos (angle * Real.pi / 180) * (shadow * 0.6)) ∧
    (shadowDescriptor shadow angle).offsetY =
      jsRoundR (Real.sin (angle * Real.pi / 180) * (shadow * 0.6)) ∧
    (shadowDescriptor shadow angle).blurRadius = shadow * 1.2 ∧
    (shadowDescriptor shadow angle).spreadRadius = -(shadow * 0.1) ∧
    (shadowDescriptor shadow angle).alpha = 0.15 + shadow / 250 ∧
    0.15 ≤ (shadowDescriptor shadow angle).alpha ∧
    (shadowDescriptor shadow angle).alpha ≤ 0.55 ∧
    (shadowDescriptor 40 135).offsetX = -17 ∧
    (shadowDescriptor 40 135).offsetY = 17 ∧
    (shadowDescriptor 40 135).blurRadius = 48 ∧
    (shadowDescriptor 40 135).spreadRadius = -4 ∧
    (shadowDescriptor 40 135).alpha = 0.31 := by
  have halpha : (shadowDescriptor shadow angle).alpha = 0.15 + shadow / 250 := rfl
  have hangle : (135 : ℝ) * Real.pi / 180 = Real.pi - Real.pi / 4 := by ring
  have hcos : Real.cos ((135 : ℝ) * Real.pi / 180) = -(Real.sqrt 2 / 2) := by
    rw [hangle, Real.cos_pi_sub, Real.cos_pi_div_four]
  have hsin : Real.sin ((135 : ℝ) * Real.pi / 180) = Real.sqrt 2 / 2 := by
    rw [hangle, Real.sin_pi_sub, Real.sin_pi_div_four]
  have hsq : Real.sqrt 2 ^ 2 = 2 := Real.sq_sqrt (by norm_num)
  have hs0 : 0 ≤ Real.sqrt 2 := Real.sqrt_nonneg 2
  have hlow : (1.414 : ℝ) < Real.sqrt 2 := by nlinarith
  have hhigh : Real.sqrt 2 < 1.415 := by nlinarith
  have hoffX : (shadowDescriptor 40 135).offsetX = -17 := by
    show jsRoundR (Real.cos ((135 : ℝ) * Real.pi / 180) * ((40 : ℝ) * 0.6)) = -17
    rw [hcos]
    unfold jsRoundR
    rw [Int.floor_eq_iff]
    constructor
    · push_cast
      nlinarith
    · push_cast
      nlinarith
  have hoffY : (shadowDescriptor 40 135).offsetY = 17 := by
    show jsRoundR (Real.sin ((135 : ℝ) * Real.pi / 180) * ((40 : ℝ) * 0.6)) = 17
    rw [hsin]
    unfold jsRoundR
    rw [Int.floor_eq_iff]
    constructor
    · push_cast
      nlinarith
    · push_cast
      nlinarith
  refine ⟨rfl, rfl, rfl, rfl, rfl, ?_, ?_, hoffX, hoffY, ?_, ?_, ?_⟩
  · rw [halpha]
    have : 0 ≤ shadow / 250 := by positivity
    linarith
  · rw [halpha]
    linarith
  · show (40 : ℝ) * 1.2 = 48
    norm_num
  · show -((40 : ℝ) * 0.1) = -4
    norm_num
  · show (0.15 : ℝ) + 40 / 250 = 0.31
    norm_num

/-- Claim C7 witness at shadow 40, angle 135. -/
theorem shadow_geometry_witness :
    (0 : ℝ) ≤ 40 ∧ (40 : ℝ) ≤ 100 ∧
    ((shadowDescriptor 40 135).offsetX =
        jsRoundR (Real.cos ((135 : ℝ) * Real.pi / 180) * ((40 : ℝ) * 0.6)) ∧
      (shadowDescriptor 40 135).offsetY =
        jsRoundR (Real.sin ((135 : ℝ) * Real.pi / 180) * ((40 : ℝ) * 0.6)) ∧
      (shadowDescriptor 40 135).blurRadius = (40 : ℝ) * 1.2 ∧
      (shadowDescriptor 40 135).spreadRadius = -((40 : ℝ) * 0.1) ∧
      (shadowDescriptor 40 135).alpha = 0.15 + (40 : ℝ) / 250 ∧
      0.15 ≤ (shadowDescriptor 40 135).alpha ∧
      (shadowDescriptor 40 135).alpha ≤ 0.55 ∧
      (shadowDescriptor 40 135).offsetX = -17 ∧
      (shadowDescriptor 40 135).offsetY = 17 ∧
      (shadowDescriptor 40 135).blurRadius = 48 ∧
      (shadowDescriptor 40 135).spreadRadius = -4 ∧
      (shadowDescriptor 40 135).alpha = 0.31) :=
  ⟨by norm_num, by norm_num, shadow_geometry 40 135 (by norm_num) (by norm_num)⟩

/-- Claim C6: when the container size is the zero size or the export size is
zero, the viewport scale is the fixed fallback 0.1. -/
theorem viewportScale_fallback (container : Size) (L : ComputedLayout)
    (h : (container.width = 0 ∧ container.height = 0) ∨
      (L.exportW = 0 ∧ L.exportH = 0)) :
    viewportScale container L = 0.1 := by
  unfold viewportScale
  rcases h with ⟨h1, _⟩ | ⟨h1, _⟩
  · rw [if_pos (Or.inl h1)]
  · rw [if_pos (Or.inr h1)]

/-- Claim C6 witness at the zero container. -/
theorem viewportScale_fallback_witness :
    (((Size.mk 0 0).width = (0 : ℚ) ∧ (Size.mk 0 0).height = (0 : ℚ)) ∨
      ((ComputedLayout.mk 5 5 1 1).exportW = (0 : ℚ) ∧
        (ComputedLayout.mk 5 5 1 1).exportH = (0 : ℚ))) ∧
    viewportScale (Size.mk 0 0) (ComputedLayout.mk 5 5 1 1) = 0.1 :=
  ⟨Or.inl ⟨rfl, rfl⟩,
    viewportScale_fallback (Size.mk 0 0) (ComputedLayout.mk 5 5 1 1)
      (Or.inl ⟨rfl, rfl⟩)⟩

end Snap
